import Mathlib

/-!
Shallow embedding of `sys/shell/src/shell.c` (the Mynewt shell core).

C strings are modelled as `String` (no embedded NUL bytes); the `argv`
array of `char *` pointers is a `List (Option String)` where `none`
stands for a NULL pointer.  Console output is collected as a
`List String`, one element per `console_printf` call, with the
formatting already applied.  The mutable globals of `shell.c`
(`shell_modules`, `num_of_shell_entities`, `default_module`,
`default_module_prompt`, `prompt`, `app_cmd_handler`,
`app_prompt_handler`) together with the two build-time configuration
values `MYNEWT_VAL(SHELL_MAX_MODULES)` and
`MYNEWT_VAL(SHELL_CMD_ARGC_MAX)` form the record `ShellState`;
state-mutating C functions become functions `ShellState → ... → ShellState × ...`.
Command callbacks (`shell_cmd_func_t`) are pure functions
`Nat → List (Option String) → Int` receiving `(argc, argv)`.
-/

namespace Spec2Proof

/-- MODULE_NAME_MAX_LEN in shell.c. -/
def MODULE_NAME_MAX_LEN : Nat := 20

/-- SHELL_PROMPT in shell.c. -/
def SHELL_PROMPT : String := "shell> "

/-- struct shell_cmd_help: optional summary and usage strings (NULL pointers -> none). -/
structure ShellCmdHelp where
  summary : Option String
  usage : Option String

/-- struct shell_cmd: a command name, its callback and its optional help record. -/
structure ShellCmd where
  sc_cmd : String
  sc_cmd_func : Nat → List (Option String) → Int
  help : Option ShellCmdHelp

/-- struct shell_module: a module name and its sentinel-terminated command table
(the sentinel is dropped; the table becomes a finite list). -/
structure ShellModule where
  module_name : String
  commands : List ShellCmd

/-- The static state of shell.c plus the two relevant build-time configuration values. -/
structure ShellState where
  max_modules : Nat
  cmd_argc_max : Nat
  shell_modules : List ShellModule
  default_module : Int
  default_module_prompt : String
  prompt : String
  app_cmd_handler : Option (Nat → List (Option String) → Int)
  app_prompt_handler : Option (Option String)

/-- Reading `argv[i]`: the C code only ever dereferences slots up to the
NULL end marker, so an out-of-range read is modelled as NULL. -/
def argvGet (argv : List (Option String)) (i : Nat) : Option String :=
  argv.getD i none

/-- `strncmp(a, b, n) == 0` for NUL-free C strings: the first `n` characters
(or all of them, for strings shorter than `n`) coincide. -/
def strncmpEq (a b : String) (n : Nat) : Bool :=
  a.data.take n == b.data.take n

/-- get_destination_module in shell.c: linear scan of the registered modules,
first index whose stored name strncmp-matches `module_str` for `len`
characters, or -1. -/
def get_destination_module (st : ShellState) (module_str : String) (len : Nat) : Int :=
  match st.shell_modules.findIdx? (fun m => strncmpEq module_str m.module_name len) with
  | some i => Int.ofNat i
  | none => -1

/-- `shell_modules[m]` for a module index that the code has checked to be valid. -/
def moduleAt (st : ShellState) (m : Int) : ShellModule :=
  st.shell_modules.getD m.toNat ⟨"", []⟩

/-- get_command_and_module in shell.c: returns (command name or NULL,
module index or -1, console output). -/
def get_command_and_module (st : ShellState) (argv : List (Option String)) :
    Option String × Int × List String :=
  match argvGet argv 0 with
  | none => (none, -1, ["Unrecognized command\n"])
  | some a0 =>
    if st.default_module = -1 then
      match argvGet argv 1 with
      | none => (none, -1, ["Unrecognized command: " ++ a0 ++ "\n"])
      | some a1 =>
        if a1 = "" then (none, -1, ["Unrecognized command: " ++ a0 ++ "\n"])
        else
          let m := get_destination_module st a0 MODULE_NAME_MAX_LEN
          if m = -1 then (none, -1, ["Illegal module " ++ a0 ++ "\n"])
          else (some a1, m, [])
    else (some a0, st.default_module, [])

/-- The help text printed for one command by show_cmd_help after the name
line: usage if present, else summary, else a blank line (also blank when
the whole help record is NULL). -/
def help_line (c : ShellCmd) : List String :=
  match c.help with
  | none => ["\n"]
  | some h =>
    match h.usage with
    | some u => [u ++ "\n"]
    | none =>
      match h.summary with
      | some s => [s ++ "\n"]
      | none => ["\n"]

/-- show_cmd_help in shell.c (its console output; its int result is always 0). -/
def show_cmd_help (st : ShellState) (argv : List (Option String)) : List String :=
  match get_command_and_module st argv with
  | (command?, m, out) =>
    if m = -1 ∨ command? = none then out
    else
      let command := command?.getD ""
      match (moduleAt st m).commands.find? (fun c => c.sc_cmd == command) with
      | some c => out ++ [c.sc_cmd ++ ":\n"] ++ help_line c
      | none => out ++ ["Unrecognized command: " ++ (argvGet argv 0).getD "" ++ "\n"]

/-- print_modules in shell.c. -/
def print_modules (st : ShellState) : List String :=
  st.shell_modules.map (fun m => m.module_name ++ "\n")

/-- The `%-30s` left-justified field used by print_module_commands. -/
def leftJustify (s : String) (n : Nat) : String :=
  s ++ String.mk (List.replicate (n - s.length) ' ')

/-- print_module_commands in shell.c. -/
def print_module_commands (st : ShellState) (m : Int) : List String :=
  ["help\n"] ++
    (moduleAt st m).commands.foldr (fun c acc =>
      [leftJustify c.sc_cmd 30] ++
        (match c.help with
         | some h =>
           match h.summary with
           | some s => [s]
           | none => []
         | none => []) ++ ["\n"] ++ acc) []

/-- show_help in shell.c (its console output; its int result is always 0). -/
def show_help (st : ShellState) (argc : Nat) (argv : List (Option String)) : List String :=
  if argc > 2 ∨ (st.default_module ≠ -1 ∧ argc = 2) then
    show_cmd_help st (argv.drop 1)
  else if argc = 2 ∨ (st.default_module ≠ -1 ∧ argc = 1) then
    if st.default_module = -1 then
      let m := get_destination_module st ((argvGet argv 1).getD "") MODULE_NAME_MAX_LEN
      if m = -1 then ["Illegal module " ++ (argvGet argv 1).getD "" ++ "\n"]
      else print_module_commands st m
    else print_module_commands st st.default_module
  else
    ["Available modules:\n"] ++ print_modules st ++
      ["To select a module, enter \x27select <module name>\x27.\n"]

/-- set_default_module in shell.c: returns the new state, the int result
and the console output.  The prompt recomputation models
`strncpy(default_module_prompt, name, MODULE_NAME_MAX_LEN)` followed by
`strcat(default_module_prompt, "> ")` on a buffer whose tail is clean. -/
def set_default_module (st : ShellState) (name : String) : ShellState × Int × List String :=
  if name.length > MODULE_NAME_MAX_LEN then
    (st, -1, ["Module name " ++ name ++ " is too long, default is not changed\n"])
  else
    let m := get_destination_module st name MODULE_NAME_MAX_LEN
    if m = -1 then
      (st, -1, ["Illegal module " ++ name ++ ", default is not changed\n"])
    else
      ({ st with default_module := m,
                 default_module_prompt :=
                   String.mk (name.data.take MODULE_NAME_MAX_LEN) ++ "> " },
       0, [])

/-- select_module in shell.c: the built-in `select` handler.  It discards
set_default_module's result and always returns 0. -/
def select_module (st : ShellState) (argc : Nat) (argv : List (Option String)) :
    ShellState × Int × List String :=
  if argc = 1 then ({ st with default_module := -1 }, 0, [])
  else
    match set_default_module st ((argvGet argv 1).getD "") with
    | (st', _, out) => (st', 0, out)

/-- The resolved callback returned by get_cb.  The C code compares the raw
function pointer against the static built-ins `show_help` and
`select_module`; registered commands and the application fallback handler
can never alias those static functions, so the comparison is modelled by
this tag. -/
inductive CbTag where
  | builtin_help
  | builtin_select
  | user (f : Nat → List (Option String) → Int)

/-- Whether the resolved callback is neither built-in (the pointer
comparisons `sc_cmd_func != select_module && sc_cmd_func != show_help`). -/
def CbTag.isUser : CbTag → Bool
  | CbTag.user _ => true
  | _ => false

/-- get_cb in shell.c: resolves argv to a callback, with console output.
The printf at its end is the `"module: %d, command: %s\n"` trace line. -/
def get_cb (st : ShellState) (argc : Nat) (argv : List (Option String)) :
    Option CbTag × List String :=
  match argvGet argv 0 with
  | none => (none, ["Illegal parameter\n"])
  | some first_string =>
    if first_string = "" then (none, ["Illegal parameter\n"])
    else if first_string = "help" then (some CbTag.builtin_help, [])
    else if first_string = "select" then (some CbTag.builtin_select, [])
    else if argc = 1 ∧ st.default_module = -1 then (none, ["Missing parameter\n"])
    else
      match get_command_and_module st argv with
      | (command?, m, out) =>
        if m = -1 ∨ command? = none then (none, out)
        else
          let command := command?.getD ""
          let out' := out ++ ["module: " ++ toString m ++ ", command: " ++ command ++ "\n"]
          match (moduleAt st m).commands.find? (fun c => c.sc_cmd == command) with
          | some c => (some (CbTag.user c.sc_cmd_func), out')
          | none => (none, out')

/-- One pointer advance of the line2argv loop: `str = strchr(str, ' ')`,
`*str++ = 0`, then `while (*str == ' ') str++`. -/
def restOf (s : List Char) : List Char :=
  ((s.dropWhile (fun c => !(c == ' '))).drop 1).dropWhile (fun c => c == ' ')

/-- The `while ((str = strchr(str, ' ')))` loop of line2argv.  `s` is the
text from the start of the most recently stored token onward, `argc` the
number of tokens stored so far.  Stored argv entries carry the string the
C pointer denotes once the scan is over: a token is terminated by the NUL
inserted on the next iteration (`takeWhile`), except that the token stored
by the aborting over-capacity iteration is never terminated and denotes
the whole remaining text. -/
def line2argvLoop (s : List Char) (size : Nat) (argv : List (Option String)) (argc : Nat) :
    Nat × List (Option String) × List String :=
  if h : s.any (fun c => c == ' ') then
    if restOf s = [] then
      (argc, argv.set argc none, [])
    else if argc + 1 = size then
      (0, argv.set argc (some (String.mk (restOf s))),
        ["Too many parameters (max " ++ toString (size - 1) ++ ")\n"])
    else
      line2argvLoop (restOf s) size
        (argv.set argc (some (String.mk ((restOf s).takeWhile (fun c => !(c == ' ')))))) (argc + 1)
  else
    (argc, argv.set argc none, [])
termination_by s.length
decreasing_by
  have key : ∀ (l : List Char), l.any (fun c => c == ' ') = true → (restOf l).length < l.length := by
    intro l
    induction l with
    | nil => intro hl; simp at hl
    | cons a t ih =>
      intro hl
      by_cases ha : a == ' '
      · have he : restOf (a :: t) = t.dropWhile (fun c => c == ' ') := by
          simp [restOf, List.dropWhile_cons, ha]
        have hd : ∀ (u : List Char), (u.dropWhile (fun c => c == ' ')).length ≤ u.length := by
          intro u
          induction u with
          | nil => simp [List.dropWhile]
          | cons b v ihv =>
            by_cases hb : (b == ' ') = true
            · simp only [List.dropWhile_cons, hb, if_pos, List.length_cons]; omega
            · simp [List.dropWhile_cons, hb]
        rw [he]
        have := hd t
        simp only [List.length_cons]
        omega
      · have ht : t.any (fun c => c == ' ') = true := by
          simpa [List.any_cons, ha] using hl
        have he : restOf (a :: t) = restOf t := by
          simp [restOf, List.dropWhile_cons, ha]
        rw [he]
        have := ih ht
        simp only [List.length_cons]
        omega
  exact key s h

/-- line2argv in shell.c: destructive tokenization of one line into the
argv array.  Returns (argc, final argv array, console output). -/
def line2argv (line : String) (argv : List (Option String)) (size : Nat) :
    Nat × List (Option String) × List String :=
  if line.data = [] then (0, argv, [])
  else
    let s1 := line.data.dropWhile (fun c => c == ' ')
    if s1 = [] then (0, argv, [])
    else
      line2argvLoop s1 size
        (argv.set 0 (some (String.mk (s1.takeWhile (fun c => !(c == ' ')))))) 1

/-- get_prompt in shell.c: application prompt handler (if registered and
returning non-NULL) wins, else the cached module prompt of a selected
default module, else the base prompt. -/
def get_prompt (st : ShellState) : String :=
  match st.app_prompt_handler with
  | some ret =>
    match ret with
    | some str => str
    | none => if st.default_module ≠ -1 then st.default_module_prompt else st.prompt
  | none => if st.default_module ≠ -1 then st.default_module_prompt else st.prompt

/-- Invoking the resolved callback: built-in help and select run the
corresponding static functions (help is state-pure, select mutates the
default-module state); a user callback is an external function that
returns its int status. -/
def runCb (st : ShellState) (t : CbTag) (argc : Nat) (argv : List (Option String)) :
    ShellState × Int × List String :=
  match t with
  | CbTag.builtin_help => (st, 0, show_help st argc argv)
  | CbTag.builtin_select => select_module st argc argv
  | CbTag.user f => (st, f argc argv, [])

/-- Lines 356-381 of shell.c (shell_process_command after tokenization):
callback resolution, the application fallback handler, the argc-offset
quirk, callback invocation, help-on-negative-result and the final prompt. -/
def shell_execute (st : ShellState) (argc : Nat) (argv : List (Option String)) :
    ShellState × List String :=
  match get_cb st argc argv with
  | (cb?, cbOut) =>
    let tag? : Option CbTag :=
      match cb? with
      | some t => some t
      | none =>
        match st.app_cmd_handler with
        | some f => some (CbTag.user f)
        | none => none
    match tag? with
    | none =>
      (st, cbOut ++ ["Unrecognized command: " ++ (argvGet argv 0).getD "" ++ "\n",
                     "Type \x27help\x27 for list of available commands\n", get_prompt st])
    | some t =>
      let argc_offset := if st.default_module = -1 ∧ t.isUser then 1 else 0
      match runCb st t (argc - argc_offset) (argv.drop argc_offset) with
      | (st', ret, runOut) =>
        let helpOut := if ret < 0 then show_cmd_help st' argv else []
        (st', cbOut ++ runOut ++ helpOut ++ [get_prompt st'])

/-- shell_process_command in shell.c. -/
def shell_process_command (st : ShellState) (line : String) : ShellState × List String :=
  match line2argv line (List.replicate (st.cmd_argc_max + 1) (none : Option String))
      (st.cmd_argc_max + 1) with
  | (argc, argv, tokOut) =>
    if argc = 0 then (st, tokOut ++ [get_prompt st])
    else
      match shell_execute st argc argv with
      | (st', out) => (st', tokOut ++ out)

/-- shell_register in shell.c: appends a module unless the registry is full. -/
def shell_register (st : ShellState) (module_name : String) (commands : List ShellCmd) :
    ShellState × Int :=
  if st.shell_modules.length ≥ st.max_modules then (st, -1)
  else ({ st with shell_modules := st.shell_modules ++ [⟨module_name, commands⟩] }, 0)

/-! Concrete scenario material used by the theorems below. -/

/-- A callback that always succeeds. -/
def cb_zero : Nat → List (Option String) → Int := fun _ _ => 0

/-- A callback that always reports failure. -/
def cb_neg : Nat → List (Option String) → Int := fun _ _ => -1

/-- A callback that succeeds exactly when invoked as a bare `scan` command:
argc 1 and argv starting with "scan" followed by the NULL end marker. -/
def cb_scan_probe : Nat → List (Option String) → Int :=
  fun n l => if n = 1 ∧ l.take 2 = [some "scan", none] then 0 else -1

/-- A callback that succeeds exactly when invoked as a bare `up` command:
argc 1 and argv starting with "up" followed by the NULL end marker. -/
def cb_up_probe : Nat → List (Option String) → Int :=
  fun n l => if n = 1 ∧ l.take 2 = [some "up", none] then 0 else -1

/-- State after `shell_init` plus registration of a `ble` module whose only
command is `scan` (with a summary and the given callback);
SHELL_MAX_MODULES = 2, SHELL_CMD_ARGC_MAX = 3, no app handlers. -/
def bleState (f : Nat → List (Option String) → Int) : ShellState :=
  { max_modules := 2, cmd_argc_max := 3,
    shell_modules := [⟨"ble", [⟨"scan", f, some ⟨some "scan for peers", none⟩⟩]⟩],
    default_module := -1, default_module_prompt := "", prompt := SHELL_PROMPT,
    app_cmd_handler := none, app_prompt_handler := none }

/-- State after `shell_init` plus registration of a `net` module with
commands `up` (the given callback) and `down`;
SHELL_MAX_MODULES = 2, SHELL_CMD_ARGC_MAX = 3, no app handlers. -/
def netState (f : Nat → List (Option String) → Int) : ShellState :=
  { max_modules := 2, cmd_argc_max := 3,
    shell_modules := [⟨"net", [⟨"up", f, none⟩, ⟨"down", cb_zero, none⟩]⟩],
    default_module := -1, default_module_prompt := "", prompt := SHELL_PROMPT,
    app_cmd_handler := none, app_prompt_handler := none }

/-- State with an `aux` module whose `run` command always returns -1 and
carries both a usage string and a summary. -/
def usageState : ShellState :=
  { max_modules := 2, cmd_argc_max := 3,
    shell_modules := [⟨"aux", [⟨"run", cb_neg, some ⟨some "run summary", some "run usage"⟩⟩]⟩],
    default_module := -1, default_module_prompt := "", prompt := SHELL_PROMPT,
    app_cmd_handler := none, app_prompt_handler := none }

/-- State with one module `a` registered and room for one more
(SHELL_MAX_MODULES = 2). -/
def regState : ShellState :=
  { max_modules := 2, cmd_argc_max := 3,
    shell_modules := [⟨"a", []⟩],
    default_module := -1, default_module_prompt := "", prompt := SHELL_PROMPT,
    app_cmd_handler := none, app_prompt_handler := none }

/-- netState with a registered prompt callback that returns the empty
string, while module 0 is selected with cached prompt "net> ". -/
def promptEmptyState : ShellState :=
  { netState cb_zero with
    app_prompt_handler := some (some "")
    default_module := 0
    default_module_prompt := "net> " }

/-- netState with a registered prompt callback returning "app> ". -/
def promptAppState : ShellState :=
  { netState cb_zero with app_prompt_handler := some (some "app> ") }

/-- netState with module 0 selected and cached prompt "net> ". -/
def promptModState : ShellState :=
  { netState cb_zero with
    default_module := 0
    default_module_prompt := "net> " }

/-! Specification-side description of a tokenizable line, used to state the
round-trip property of the tokenizer: a line is leading spaces followed by
tokens, each token paired with the number of spaces that follow it. -/

/-- Well-formed token list: every token is nonempty and space-free, and
every token but the last is followed by at least one space. -/
def tokensWF : List (List Char × Nat) → Bool
  | [] => true
  | (t, _) :: [] => (!t.isEmpty) && (!t.any (fun c => c == ' '))
  | (t, k) :: r :: rest =>
    (!t.isEmpty) && (!t.any (fun c => c == ' ')) && decide (1 ≤ k) && tokensWF (r :: rest)

/-- The text of a token list: each token followed by its trailing spaces. -/
def buildToks : List (List Char × Nat) → List Char
  | [] => []
  | (t, k) :: rest => t ++ List.replicate k ' ' ++ buildToks rest

/-- A whole input line: leading spaces, then the tokens. -/
def buildLine (lead : Nat) (ts : List (List Char × Nat)) : String :=
  String.mk (List.replicate lead ' ' ++ buildToks ts)

/-- The strings of a token list. -/
def tokStrings (ts : List (List Char × Nat)) : List String :=
  ts.map (fun p => String.mk p.1)

/-- The argv writes performed by a successful line2argv run: the tokens at
consecutive indices from `i`, then the NULL end marker. -/
def writeArgs (argv : List (Option String)) (i : Nat) : List String → List (Option String)
  | [] => argv.set i none
  | t :: ts => writeArgs (argv.set i (some t)) (i + 1) ts

/-! Unfolding lemmas for the four exits of one line2argv loop iteration. -/

/-- Loop exit taken when no space remains: terminate argv and return argc. -/
theorem line2argvLoop_nospace (s : List Char) (size : Nat) (argv : List (Option String))
    (argc : Nat) (h : s.any (fun c => c == ' ') = false) :
    line2argvLoop s size argv argc = (argc, argv.set argc none, []) := by
  conv_lhs => rw [line2argvLoop.eq_def]
  rw [dif_neg (by simp [h])]

/-- Loop exit taken on a trailing run of spaces: no spurious empty token. -/
theorem line2argvLoop_trail (s : List Char) (size : Nat) (argv : List (Option String))
    (argc : Nat) (h : s.any (fun c => c == ' ') = true) (h2 : restOf s = []) :
    line2argvLoop s size argv argc = (argc, argv.set argc none, []) := by
  conv_lhs => rw [line2argvLoop.eq_def]
  rw [dif_pos h, if_pos h2]

/-- Loop exit taken when storing one more token reaches the capacity:
the notice is printed and argc 0 is returned. -/
theorem line2argvLoop_abort (s : List Char) (size : Nat) (argv : List (Option String))
    (argc : Nat) (h : s.any (fun c => c == ' ') = true) (h2 : restOf s ≠ [])
    (h3 : argc + 1 = size) :
    line2argvLoop s size argv argc
      = (0, argv.set argc (some (String.mk (restOf s))),
         ["Too many parameters (max " ++ toString (size - 1) ++ ")\n"]) := by
  conv_lhs => rw [line2argvLoop.eq_def]
  rw [dif_pos h, if_neg h2, if_pos h3]

/-- Loop iteration that stores one more token and continues. -/
theorem line2argvLoop_next (s : List Char) (size : Nat) (argv : List (Option String))
    (argc : Nat) (h : s.any (fun c => c == ' ') = true) (h2 : restOf s ≠ [])
    (h3 : ¬ (argc + 1 = size)) :
    line2argvLoop s size argv argc
      = line2argvLoop (restOf s) size
          (argv.set argc
            (some (String.mk ((restOf s).takeWhile (fun c => !(c == ' ')))))) (argc + 1) := by
  conv_lhs => rw [line2argvLoop.eq_def]
  rw [dif_pos h, if_neg h2, if_neg h3]

/-! Concrete tokenizations used by the scenario theorems. -/

/-- Tokenizing "ble scan" with the configured argv capacity. -/
theorem tok_ble_scan :
    line2argv "ble scan" (List.replicate 4 (none : Option String)) 4
      = (2, [some "ble", some "scan", none, none], []) := by
  have h1 : line2argvLoop ['b','l','e',' ','s','c','a','n'] 4 [some "ble", none, none, none] 1
      = (2, [some "ble", some "scan", none, none], []) := by
    rw [line2argvLoop_next _ _ _ _ (by decide) (by decide) (by decide)]
    rw [show restOf ['b','l','e',' ','s','c','a','n'] = ['s','c','a','n'] from rfl]
    rw [line2argvLoop_nospace _ _ _ _ (by decide)]
    decide
  exact h1

/-- Tokenizing "net up" with the configured argv capacity. -/
theorem tok_net_up :
    line2argv "net up" (List.replicate 4 (none : Option String)) 4
      = (2, [some "net", some "up", none, none], []) := by
  have h1 : line2argvLoop ['n','e','t',' ','u','p'] 4 [some "net", none, none, none] 1
      = (2, [some "net", some "up", none, none], []) := by
    rw [line2argvLoop_next _ _ _ _ (by decide) (by decide) (by decide)]
    rw [show restOf ['n','e','t',' ','u','p'] = ['u','p'] from rfl]
    rw [line2argvLoop_nospace _ _ _ _ (by decide)]
    decide
  exact h1

/-- Tokenizing "up" with the configured argv capacity. -/
theorem tok_up :
    line2argv "up" (List.replicate 4 (none : Option String)) 4
      = (1, [some "up", none, none, none], []) := by
  have h1 : line2argvLoop ['u','p'] 4 [some "up", none, none, none] 1
      = (1, [some "up", none, none, none], []) := by
    rw [line2argvLoop_nospace _ _ _ _ (by decide)]
    decide
  exact h1

/-- Tokenizing "foo" with the configured argv capacity. -/
theorem tok_foo :
    line2argv "foo" (List.replicate 4 (none : Option String)) 4
      = (1, [some "foo", none, none, none], []) := by
  have h1 : line2argvLoop ['f','o','o'] 4 [some "foo", none, none, none] 1
      = (1, [some "foo", none, none, none], []) := by
    rw [line2argvLoop_nospace _ _ _ _ (by decide)]
    decide
  exact h1

/-- Tokenizing "select net" with the configured argv capacity. -/
theorem tok_select_net :
    line2argv "select net" (List.replicate 4 (none : Option String)) 4
      = (2, [some "select", some "net", none, none], []) := by
  have h1 : line2argvLoop ['s','e','l','e','c','t',' ','n','e','t'] 4
        [some "select", none, none, none] 1
      = (2, [some "select", some "net", none, none], []) := by
    rw [line2argvLoop_next _ _ _ _ (by decide) (by decide) (by decide)]
    rw [show restOf ['s','e','l','e','c','t',' ','n','e','t'] = ['n','e','t'] from rfl]
    rw [line2argvLoop_nospace _ _ _ _ (by decide)]
    decide
  exact h1

/-- Tokenizing "select zzz" with the configured argv capacity. -/
theorem tok_select_zzz :
    line2argv "select zzz" (List.replicate 4 (none : Option String)) 4
      = (2, [some "select", some "zzz", none, none], []) := by
  have h1 : line2argvLoop ['s','e','l','e','c','t',' ','z','z','z'] 4
        [some "select", none, none, none] 1
      = (2, [some "select", some "zzz", none, none], []) := by
    rw [line2argvLoop_next _ _ _ _ (by decide) (by decide) (by decide)]
    rw [show restOf ['s','e','l','e','c','t',' ','z','z','z'] = ['z','z','z'] from rfl]
    rw [line2argvLoop_nospace _ _ _ _ (by decide)]
    decide
  exact h1

/-- Tokenizing "aux run" with the configured argv capacity. -/
theorem tok_aux_run :
    line2argv "aux run" (List.replicate 4 (none : Option String)) 4
      = (2, [some "aux", some "run", none, none], []) := by
  have h1 : line2argvLoop ['a','u','x',' ','r','u','n'] 4 [some "aux", none, none, none] 1
      = (2, [some "aux", some "run", none, none], []) := by
    rw [line2argvLoop_next _ _ _ _ (by decide) (by decide) (by decide)]
    rw [show restOf ['a','u','x',' ','r','u','n'] = ['r','u','n'] from rfl]
    rw [line2argvLoop_nospace _ _ _ _ (by decide)]
    decide
  exact h1

/-- C1 counterexample: with module "a" already registered and capacity 2,
registering "b" appends it at index 1 but the function returns 0, not the
new module's index. -/
theorem shell_register_index_counterexample :
    (shell_register regState "b" []).2 = 0 ∧
    (shell_register regState "b" []).1.shell_modules.map (fun m => m.module_name) = ["a", "b"] ∧
    ¬ ((0 : Int) = 1) := by
  refine ⟨rfl, rfl, by decide⟩

/-- C1: registration appends the module and returns 0 when the registry
has room, and returns -1 leaving the state (hence the module count)
unchanged when it is full. -/
theorem shell_register_spec (st : ShellState) (name : String) (commands : List ShellCmd) :
    shell_register st name commands
      = if st.shell_modules.length < st.max_modules
        then ({ st with shell_modules := st.shell_modules ++ [⟨name, commands⟩] }, 0)
        else (st, -1) := by
  unfold shell_register
  by_cases h : st.shell_modules.length ≥ st.max_modules
  · rw [if_pos h, if_neg (by omega)]
  · rw [if_neg h, if_pos (by omega)]

/-- C4 counterexample: a registered prompt callback returning the empty
string wins over the cached module prompt, contradicting the claim that
only a non-empty callback result is used. -/
theorem get_prompt_empty_counterexample :
    get_prompt promptEmptyState = "" ∧
    promptEmptyState.default_module_prompt = "net> " ∧
    ¬ (("" : String) = "net> ") := by
  exact ⟨rfl, rfl, by decide⟩

/-- C4: prompt precedence as implemented: a registered callback returning
any non-NULL string (empty included) wins; otherwise the cached module
prompt of a selected default module; otherwise the base prompt. -/
theorem get_prompt_precedence (st : ShellState) :
    (∀ s, st.app_prompt_handler = some (some s) → get_prompt st = s) ∧
    ((st.app_prompt_handler = none ∨ st.app_prompt_handler = some none) →
      ¬ st.default_module = -1 → get_prompt st = st.default_module_prompt) ∧
    ((st.app_prompt_handler = none ∨ st.app_prompt_handler = some none) →
      st.default_module = -1 → get_prompt st = st.prompt) := by
  refine ⟨?_, ?_, ?_⟩
  · intro s hs
    simp [get_prompt, hs]
  · rintro (h | h) hd <;> simp [get_prompt, h, hd]
  · rintro (h | h) hd <;> simp [get_prompt, h, hd]

/-- C4 witness: the three precedence branches at concrete states. -/
theorem get_prompt_precedence_witness :
    get_prompt promptAppState = "app> " ∧
    get_prompt promptModState = "net> " ∧
    get_prompt (netState cb_zero) = (netState cb_zero).prompt :=
  ⟨(get_prompt_precedence _).1 "app> " rfl,
   (get_prompt_precedence _).2.1 (Or.inl rfl) (by decide),
   (get_prompt_precedence _).2.2 (Or.inl rfl) rfl⟩

/-- C6: selecting a default module leaves the state unchanged on both
failure paths (name too long, module not found) and on success stores the
found index and recomputes the cached prompt as the name followed by "> ". -/
theorem set_default_module_spec (st : ShellState) (name : String) :
    (name.length > MODULE_NAME_MAX_LEN →
      set_default_module st name
        = (st, -1, ["Module name " ++ name ++ " is too long, default is not changed\n"])) ∧
    (¬ name.length > MODULE_NAME_MAX_LEN →
      get_destination_module st name MODULE_NAME_MAX_LEN = -1 →
      set_default_module st name
        = (st, -1, ["Illegal module " ++ name ++ ", default is not changed\n"])) ∧
    (∀ m, ¬ name.length > MODULE_NAME_MAX_LEN →
      get_destination_module st name MODULE_NAME_MAX_LEN = m → ¬ m = -1 →
      set_default_module st name
        = ({ st with default_module := m, default_module_prompt := name ++ "> " }, 0, [])) := by
  refine ⟨?_, ?_, ?_⟩
  · intro h
    unfold set_default_module
    rw [if_pos h]
  · intro h hm
    unfold set_default_module
    rw [if_neg h]
    simp only [hm, if_pos]
  · intro m h hm hm1
    unfold set_default_module
    rw [if_neg h]
    simp only [hm, if_neg hm1]
    have htake : name.data.take MODULE_NAME_MAX_LEN = name.data := by
      apply List.take_of_length_le
      have : name.length = name.data.length := rfl
      omega
    rw [htake]

/-- C6 witness: the three branches at concrete inputs: an over-long name,
an unknown name, and the registered name "net". -/
theorem set_default_module_spec_witness :
    set_default_module (netState cb_zero) "abcdefghijklmnopqrstu"
      = (netState cb_zero, -1,
         ["Module name abcdefghijklmnopqrstu is too long, default is not changed\n"]) ∧
    set_default_module (netState cb_zero) "zzz"
      = (netState cb_zero, -1, ["Illegal module zzz, default is not changed\n"]) ∧
    set_default_module (netState cb_zero) "net"
      = ({ netState cb_zero with default_module := 0, default_module_prompt := "net> " },
         0, []) :=
  ⟨(set_default_module_spec _ _).1 (by decide),
   (set_default_module_spec _ _).2.1 (by decide) (by decide),
   (set_default_module_spec _ _).2.2 0 (by decide) (by decide) (by decide)⟩

/-- C7 counterexample: for the single unknown token "foo" with no default
module selected, the resolver prints "Missing parameter", not the claimed
"Unrecognized command: foo" diagnostic. -/
theorem get_cb_missing_param_counterexample :
    (get_cb (netState cb_zero) 1 [some "foo", none]).2 = ["Missing parameter\n"] ∧
    ¬ ("Unrecognized command: foo\n" ∈ (get_cb (netState cb_zero) 1 [some "foo", none]).2) := by
  exact ⟨rfl, by decide⟩

/-- C7: a single token that is neither "help" nor "select", with no
default module selected, makes the resolver return no callback after
printing "Missing parameter"; the executor (with no app fallback handler)
then prints "Unrecognized command: <token>", the help hint and the prompt. -/
theorem single_token_resolution :
    (∀ (st : ShellState) (argv : List (Option String)) (tok : String),
      argvGet argv 0 = some tok → ¬ tok = "" → ¬ tok = "help" → ¬ tok = "select" →
      st.default_module = -1 →
      get_cb st 1 argv = (none, ["Missing parameter\n"])) ∧
    (shell_process_command (netState cb_zero) "foo").2
      = ["Missing parameter\n", "Unrecognized command: foo\n",
         "Type \x27help\x27 for list of available commands\n", "shell> "] := by
  constructor
  · intro st argv tok h0 h1 h2 h3 hd
    unfold get_cb
    rw [h0]
    simp only [if_neg h1, if_neg h2, if_neg h3]
    rw [if_pos ⟨trivial, hd⟩]
  · have hp : shell_process_command (netState cb_zero) "foo"
        = (netState cb_zero,
           ["Missing parameter\n", "Unrecognized command: foo\n",
            "Type \x27help\x27 for list of available commands\n", "shell> "]) := by
      unfold shell_process_command
      rw [show (netState cb_zero).cmd_argc_max + 1 = 4 from rfl]
      rw [tok_foo]
      rfl
    rw [hp]

/-- C7 witness: the resolver branch at a concrete state and token. -/
theorem single_token_resolution_witness :
    get_cb (netState cb_zero) 1 [some "bar", none] = (none, ["Missing parameter\n"]) :=
  single_token_resolution.1 (netState cb_zero) [some "bar", none] "bar" rfl
    (by decide) (by decide) (by decide) rfl

/-- C8 counterexample: processing "ble scan" with a callback returning 0
prints the resolver trace line "module: 0, command: scan" in addition to
the prompt, so the output is not the reprinted prompt alone. -/
theorem ble_scan_output_counterexample :
    (shell_process_command (bleState cb_zero) "ble scan").2
      = ["module: 0, command: scan\n", "shell> "] ∧
    ¬ ((["module: 0, command: scan\n", "shell> "] : List String) = ["shell> "]) := by
  have hp : shell_process_command (bleState cb_zero) "ble scan"
      = (bleState cb_zero, ["module: 0, command: scan\n", "shell> "]) := by
    unfold shell_process_command
    rw [show (bleState cb_zero).cmd_argc_max + 1 = 4 from rfl]
    rw [tok_ble_scan]
    rfl
  rw [hp]
  exact ⟨rfl, by decide⟩

/-- C8: processing "ble scan" invokes the scan callback with argc 1 and
argv starting with "scan" then the NULL marker (cb_scan_probe returns 0
exactly in that case, and no help output appears), the state is unchanged,
and the console output is the resolver trace line followed by the prompt. -/
theorem ble_scan_invocation :
    shell_process_command (bleState cb_scan_probe) "ble scan"
      = (bleState cb_scan_probe, ["module: 0, command: scan\n", "shell> "]) ∧
    cb_scan_probe 1 [some "scan", none, none] = 0 ∧
    cb_scan_probe 0 [some "ble", some "scan", none, none] = -1 := by
  refine ⟨?_, by decide, by decide⟩
  unfold shell_process_command
  rw [show (bleState cb_scan_probe).cmd_argc_max + 1 = 4 from rfl]
  rw [tok_ble_scan]
  rfl

/-- C10: the built-in select handler always returns 0, and a failed
"select zzz" line prints only the selection diagnostic and the prompt:
no negative-return help rendering is triggered and the state is unchanged. -/
theorem select_always_returns_zero :
    (∀ (st : ShellState) (argc : Nat) (argv : List (Option String)),
      (select_module st argc argv).2.1 = 0) ∧
    (shell_process_command (netState cb_up_probe) "select zzz").2
      = ["Illegal module zzz, default is not changed\n", "shell> "] ∧
    (shell_process_command (netState cb_up_probe) "select zzz").1 = netState cb_up_probe := by
  have hp : shell_process_command (netState cb_up_probe) "select zzz"
      = (netState cb_up_probe, ["Illegal module zzz, default is not changed\n", "shell> "]) := by
    unfold shell_process_command
    rw [show (netState cb_up_probe).cmd_argc_max + 1 = 4 from rfl]
    rw [tok_select_zzz]
    rfl
  refine ⟨?_, by rw [hp], by rw [hp]⟩
  intro st argc argv
  unfold select_module
  by_cases h : argc = 1
  · rw [if_pos h]
  · rw [if_neg h]

/-- On every successful resolution, get_command_and_module prints nothing
and returns a valid module index. -/
theorem gcm_out_nil (st : ShellState) (argv : List (Option String)) (cmd : String) (m : Int)
    (out : List String) (h : get_command_and_module st argv = (some cmd, m, out)) :
    out = [] ∧ ¬ m = -1 := by
  unfold get_command_and_module at h
  split at h
  · simp at h
  · split at h
    · split at h
      · simp at h
      · split at h
        · simp at h
        · simp only [] at h
          split at h
          · simp at h
          · rename_i hm
            simp at h
            obtain ⟨h1, h2, h3⟩ := h
            exact ⟨h3, by rw [← h2]; exact hm⟩
    · rename_i hd
      simp at h
      obtain ⟨h1, h2, h3⟩ := h
      exact ⟨h3, by rw [← h2]; exact hd⟩

/-- Inversion of a successful user-command resolution: get_cb found the
command by name in a valid module, printed only the trace line, and
returned that command callback. -/
theorem get_cb_user_inv (st : ShellState) (argc : Nat) (argv : List (Option String))
    (f : Nat → List (Option String) → Int) (dbg : List String)
    (h : get_cb st argc argv = (some (CbTag.user f), dbg)) :
    ∃ cmd m c, get_command_and_module st argv = (some cmd, m, []) ∧ ¬ m = -1 ∧
      (moduleAt st m).commands.find? (fun k => k.sc_cmd == cmd) = some c ∧
      c.sc_cmd_func = f ∧
      dbg = ["module: " ++ toString m ++ ", command: " ++ cmd ++ "\n"] := by
  unfold get_cb at h
  split at h
  · simp at h
  · split at h
    · simp at h
    · split at h
      · simp at h
      · split at h
        · simp at h
        · split at h
          · simp at h
          · rcases hg : get_command_and_module st argv with ⟨cmd?, m, out⟩
            rw [hg] at h
            simp only [] at h
            split at h
            · simp at h
            · rename_i hcond
              have hm1 : ¬ m = -1 := fun hh => hcond (Or.inl hh)
              have hcs : ¬ cmd? = none := fun hh => hcond (Or.inr hh)
              rcases cmd? with _ | cmd
              · exact absurd rfl hcs
              · split at h
                · rename_i c hfind
                  simp at h
                  obtain ⟨hf, hdbg⟩ := h
                  obtain ⟨ho, _⟩ := gcm_out_nil st argv cmd m out hg
                  subst ho
                  refine ⟨cmd, m, c, rfl, hm1, ?_, ?_, ?_⟩
                  · simpa using hfind
                  · exact hf
                  · exact (by simpa using hdbg : _ = dbg).symm
                · simp at h
/-- show_cmd_help on an argv that resolves to a found command prints the
command name line and then its help text. -/
theorem show_cmd_help_found (st : ShellState) (argv : List (Option String)) (cmd : String)
    (m : Int) (c : ShellCmd)
    (hg : get_command_and_module st argv = (some cmd, m, []))
    (hm : ¬ m = -1)
    (hf : (moduleAt st m).commands.find? (fun k => k.sc_cmd == cmd) = some c) :
    show_cmd_help st argv = [c.sc_cmd ++ ":\n"] ++ help_line c := by
  unfold show_cmd_help
  rw [hg]
  simp only [Option.getD_some]
  rw [if_neg (by simp [hm])]
  rw [hf]
  simp

/-- The execution stage for a resolved user callback: the argc-offset
quirk, the negative-result help and the final prompt, in closed form. -/
theorem shell_execute_user (st : ShellState) (argc : Nat) (argv : List (Option String))
    (f : Nat → List (Option String) → Int) (dbg : List String)
    (hcb : get_cb st argc argv = (some (CbTag.user f), dbg)) :
    shell_execute st argc argv
      = (st, dbg ++ (if f (argc - (if st.default_module = -1 then 1 else 0))
                        (argv.drop (if st.default_module = -1 then 1 else 0)) < 0
                     then show_cmd_help st argv else []) ++ [get_prompt st]) := by
  unfold shell_execute
  rw [hcb]
  simp only [CbTag.isUser, runCb]
  by_cases hd : st.default_module = -1
  · simp [hd]
  · simp [hd]
/-- C2: when no default module is selected and the resolved callback is a
user command (neither built-in select nor help), the callback is invoked
with argc - 1 arguments starting at argv[1]; with a default module
selected it is invoked with the unshifted argc and argv.  The two closing
conjuncts run "net up" with no default and "up" after processing
"select net" against cb_up_probe, which returns 0 exactly when it
receives argc 1 and argv beginning with "up" then the NULL marker: both
outputs show no help lines, so both invocations received identical
arguments. -/
theorem argc_offset_quirk :
    (∀ (st : ShellState) (line : String) (argc : Nat) (argv : List (Option String))
       (f : Nat → List (Option String) → Int) (dbg : List String),
       line2argv line (List.replicate (st.cmd_argc_max + 1) (none : Option String))
           (st.cmd_argc_max + 1) = (argc, argv, []) →
       ¬ argc = 0 →
       get_cb st argc argv = (some (CbTag.user f), dbg) →
       (st.default_module = -1 →
         shell_process_command st line
           = (st, dbg ++ (if f (argc - 1) (argv.drop 1) < 0 then show_cmd_help st argv else [])
                ++ [get_prompt st])) ∧
       (¬ st.default_module = -1 →
         shell_process_command st line
           = (st, dbg ++ (if f argc argv < 0 then show_cmd_help st argv else [])
                ++ [get_prompt st]))) ∧
    (shell_process_command (netState cb_up_probe) "net up").2
        = ["module: 0, command: up\n", "shell> "] ∧
    (shell_process_command ((shell_process_command (netState cb_up_probe) "select net").1) "up").2
        = ["module: 0, command: up\n", "net> "] := by
  refine ⟨?_, ?_, ?_⟩
  · intro st line argc argv f dbg htok hargc hcb
    constructor
    · intro hd
      unfold shell_process_command
      rw [htok]
      simp only [if_neg hargc]
      rw [shell_execute_user st argc argv f dbg hcb]
      simp [hd]
    · intro hd
      unfold shell_process_command
      rw [htok]
      simp only [if_neg hargc]
      rw [shell_execute_user st argc argv f dbg hcb]
      simp [hd]
  · unfold shell_process_command
    rw [show (netState cb_up_probe).cmd_argc_max + 1 = 4 from rfl]
    rw [tok_net_up]
    rfl
  · have hsel : shell_process_command (netState cb_up_probe) "select net"
        = ({ netState cb_up_probe with
             default_module := 0
             default_module_prompt := "net> " }, ["net> "]) := by
      unfold shell_process_command
      rw [show (netState cb_up_probe).cmd_argc_max + 1 = 4 from rfl]
      rw [tok_select_net]
      rfl
    rw [hsel]
    unfold shell_process_command
    rw [show ({ netState cb_up_probe with
                default_module := 0
                default_module_prompt := "net> " } : ShellState).cmd_argc_max + 1 = 4 from rfl]
    rw [tok_up]
    rfl
/-- C5: a resolved user command whose callback returns a negative value
makes shell_process_command print that command name line and help text
(usage if present, else summary, else a blank line: help_line) instead of
a generic error, followed by exactly one prompt. -/
theorem negative_return_help (st : ShellState) (line : String) (argc : Nat)
    (argv : List (Option String)) (f : Nat → List (Option String) → Int) (dbg : List String)
    (htok : line2argv line (List.replicate (st.cmd_argc_max + 1) (none : Option String))
        (st.cmd_argc_max + 1) = (argc, argv, []))
    (hargc : ¬ argc = 0)
    (hcb : get_cb st argc argv = (some (CbTag.user f), dbg))
    (hneg : f (argc - (if st.default_module = -1 then 1 else 0))
        (argv.drop (if st.default_module = -1 then 1 else 0)) < 0) :
    ∃ c : ShellCmd,
      (∃ cmd m, get_command_and_module st argv = (some cmd, m, []) ∧
        (moduleAt st m).commands.find? (fun k => k.sc_cmd == cmd) = some c ∧
        c.sc_cmd_func = f) ∧
      shell_process_command st line
        = (st, dbg ++ ([c.sc_cmd ++ ":\n"] ++ help_line c) ++ [get_prompt st]) := by
  obtain ⟨cmd, m, c, hg, hm, hf, hcf, hdbg⟩ := get_cb_user_inv st argc argv f dbg hcb
  refine ⟨c, ⟨cmd, m, hg, hf, hcf⟩, ?_⟩
  unfold shell_process_command
  rw [htok]
  simp only [if_neg hargc]
  rw [shell_execute_user st argc argv f dbg hcb]
  rw [if_pos hneg]
  rw [show_cmd_help_found st argv cmd m c hg hm hf]
  simp

/-- C5 witness: the run command of usageState always returns -1; its usage
string is printed and the prompt follows exactly once. -/
theorem negative_return_help_witness :
    shell_process_command usageState "aux run"
      = (usageState, ["module: 0, command: run\n", "run:\n", "run usage\n", "shell> "]) := by
  obtain ⟨c, hinfo, heq⟩ := negative_return_help usageState "aux run" 2
    [some "aux", some "run", none, none] cb_neg ["module: 0, command: run\n"]
    tok_aux_run (by decide) rfl (by decide)
  obtain ⟨cmd, m, hg, hf, hcf⟩ := hinfo
  have hg0 : get_command_and_module usageState [some "aux", some "run", none, none]
      = (some "run", 0, []) := rfl
  rw [hg0] at hg
  simp only [Prod.mk.injEq, Option.some.injEq] at hg
  obtain ⟨h1, h2, h3⟩ := hg
  subst h1
  subst h2
  have hf0 : (moduleAt usageState (0 : Int)).commands.find? (fun k => k.sc_cmd == "run")
      = some ⟨"run", cb_neg, some ⟨some "run summary", some "run usage"⟩⟩ := rfl
  rw [hf0] at hf
  simp only [Option.some.injEq] at hf
  subst hf
  rw [heq]
  rfl
/-- C2 witness: the no-default branch at a concrete state and line. -/
theorem argc_offset_quirk_witness :
    shell_process_command (netState cb_up_probe) "net up"
      = (netState cb_up_probe,
         ["module: 0, command: up\n"]
           ++ (if cb_up_probe 1 ([some "net", some "up", none, none].drop 1) < 0
               then show_cmd_help (netState cb_up_probe) [some "net", some "up", none, none]
               else [])
           ++ [get_prompt (netState cb_up_probe)]) :=
  (argc_offset_quirk.1 (netState cb_up_probe) "net up" 2 [some "net", some "up", none, none]
      cb_up_probe ["module: 0, command: up\n"] tok_net_up (by decide) rfl).1 rfl

/-- One loop iteration of line2argv strictly shrinks the remaining text. -/
theorem restOf_shrinks (s : List Char) (h : s.any (fun c => c == ' ') = true) :
    (restOf s).length < s.length := by
  induction s with
  | nil => simp at h
  | cons a t ih =>
    by_cases ha : a == ' '
    · have he : restOf (a :: t) = t.dropWhile (fun c => c == ' ') := by
        simp [restOf, List.dropWhile_cons, ha]
      have hd : ∀ (u : List Char), (u.dropWhile (fun c => c == ' ')).length ≤ u.length := by
        intro u
        induction u with
        | nil => simp [List.dropWhile]
        | cons b v ihv =>
          by_cases hb : (b == ' ') = true
          · simp only [List.dropWhile_cons, hb, if_pos, List.length_cons]
            omega
          · simp [List.dropWhile_cons, hb]
      rw [he]
      have := hd t
      simp only [List.length_cons]
      omega
    · have ht : t.any (fun c => c == ' ') = true := by
        simpa [List.any_cons, ha] using h
      have he : restOf (a :: t) = restOf t := by
        simp [restOf, List.dropWhile_cons, ha]
      rw [he]
      have := ih ht
      simp only [List.length_cons]
      omega

/-- Writing the NULL marker at an index makes that cell read as NULL
(also when the write is out of range and the read defaults). -/
theorem getD_set_none (l : List (Option String)) (i : Nat) :
    (l.set i none).getD i none = none := by
  induction l generalizing i with
  | nil => simp [List.getD]
  | cons a t ih =>
    cases i with
    | zero => simp [List.getD]
    | succ j => simpa [List.getD] using ih j

/-- Whenever the line2argv loop returns a nonzero argc, the final argv
carries the NULL end marker at position argc. -/
theorem line2argvLoop_marker : ∀ (n : Nat) (s : List Char) (size : Nat)
    (argv : List (Option String)) (argc : Nat), s.length ≤ n →
    ¬ (line2argvLoop s size argv argc).1 = 0 →
    argvGet (line2argvLoop s size argv argc).2.1 (line2argvLoop s size argv argc).1 = none := by
  intro n
  induction n with
  | zero =>
    intro s size argv argc hlen hne
    have hs : s = [] := List.length_eq_zero.mp (Nat.le_zero.mp hlen)
    subst hs
    rw [line2argvLoop_nospace _ _ _ _ (by simp)]
    exact getD_set_none argv argc
  | succ n ih =>
    intro s size argv argc hlen hne
    by_cases h : s.any (fun c => c == ' ') = true
    · by_cases h2 : restOf s = []
      · rw [line2argvLoop_trail _ _ _ _ h h2]
        exact getD_set_none argv argc
      · by_cases h3 : argc + 1 = size
        · rw [line2argvLoop_abort _ _ _ _ h h2 h3] at hne
          simp at hne
        · rw [line2argvLoop_next _ _ _ _ h h2 h3] at hne ⊢
          apply ih _ _ _ _ _ hne
          have := restOf_shrinks s h
          omega
    · rw [line2argvLoop_nospace _ _ _ _ (by simp only [Bool.not_eq_true] at h; exact h)]
      exact getD_set_none argv argc

/-- C9: whenever line2argv returns a nonzero argument count, the returned
argv array holds the NULL end marker at position argc. -/
theorem argv_null_marker (line : String) (argv : List (Option String)) (size : Nat)
    (h : ¬ (line2argv line argv size).1 = 0) :
    argvGet (line2argv line argv size).2.1 ((line2argv line argv size).1) = none := by
  unfold line2argv at h ⊢
  by_cases hd : line.data = []
  · simp [hd] at h
  · rw [if_neg hd] at h ⊢
    by_cases hs : line.data.dropWhile (fun c => c == ' ') = []
    · simp [hs] at h
    · simp only [hs, if_neg] at h ⊢
      exact line2argvLoop_marker
        ((line.data.dropWhile (fun c => c == ' ')).length) _ _ _ _ (le_refl _) h

/-- Dropping spaces consumes a leading run of spaces. -/
theorem dropSpaces_replicate (k : Nat) (xs : List Char) :
    (List.replicate k ' ' ++ xs).dropWhile (fun c => c == ' ') = xs.dropWhile (fun c => c == ' ') := by
  induction k with
  | zero => simp
  | succ n ih =>
    rw [List.replicate_succ, List.cons_append, List.dropWhile_cons]
    rw [if_pos (by decide)]
    exact ih

/-- Dropping spaces stops at a nonempty space-free token. -/
theorem dropSpaces_head_nonspace (t xs : List Char) (ht : ¬ t = []) (h : ∀ x ∈ t, ¬ x = ' ') :
    (t ++ xs).dropWhile (fun c => c == ' ') = t ++ xs := by
  cases t with
  | nil => exact absurd rfl ht
  | cons a t' =>
    have ha : (a == ' ') = false := by simpa using h a (by simp)
    simp [List.dropWhile_cons, ha]

/-- Scanning to the next space reads back exactly the token before it. -/
theorem takeWhile_token (t xs : List Char) (h : ∀ x ∈ t, ¬ x = ' ') :
    (t ++ ' ' :: xs).takeWhile (fun c => !(c == ' ')) = t := by
  induction t with
  | nil => simp [List.takeWhile_cons]
  | cons a t' ih =>
    have ha : (a == ' ') = false := by simpa using h a (by simp)
    rw [List.cons_append, List.takeWhile_cons]
    simp only [ha, Bool.not_false, if_true, if_pos]
    rw [ih (fun x hx => h x (by simp [hx]))]

/-- Scanning a space-free token to the end reads back the whole token. -/
theorem takeWhile_token_all (t : List Char) (h : ∀ x ∈ t, ¬ x = ' ') :
    t.takeWhile (fun c => !(c == ' ')) = t := by
  induction t with
  | nil => simp
  | cons a t' ih =>
    have ha : (a == ' ') = false := by simpa using h a (by simp)
    rw [List.takeWhile_cons]
    simp only [ha, Bool.not_false, if_true, if_pos]
    rw [ih (fun x hx => h x (by simp [hx]))]

/-- Skipping the current token positions the scan at the following space. -/
theorem dropWhileNot_token (t xs : List Char) (h : ∀ x ∈ t, ¬ x = ' ') :
    (t ++ ' ' :: xs).dropWhile (fun c => !(c == ' ')) = ' ' :: xs := by
  induction t with
  | nil => simp [List.dropWhile_cons]
  | cons a t' ih =>
    have ha : (a == ' ') = false := by simpa using h a (by simp)
    rw [List.cons_append, List.dropWhile_cons]
    simp only [ha, Bool.not_false, if_true, if_pos]
    exact ih (fun x hx => h x (by simp [hx]))

/-- One loop advance from a token start lands on the text after that
token and its trailing spaces. -/
theorem restOf_token (t : List Char) (k' : Nat) (ys : List Char) (h : ∀ x ∈ t, ¬ x = ' ') :
    restOf (t ++ ' ' :: (List.replicate k' ' ' ++ ys)) = ys.dropWhile (fun c => c == ' ') := by
  unfold restOf
  rw [dropWhileNot_token t _ h]
  rw [List.drop_succ_cons, List.drop_zero]
  exact dropSpaces_replicate k' ys

/-- A text containing a space after its first token passes the strchr test. -/
theorem any_token_space (t xs : List Char) :
    (t ++ ' ' :: xs).any (fun c => c == ' ') = true := by
  simp

/-- A space-free token fails the strchr test. -/
theorem token_any_false (t : List Char) (h : ∀ x ∈ t, ¬ x = ' ') :
    t.any (fun c => c == ' ') = false := by
  simpa using h

/-- A well-formed token list starts with a nonempty space-free token. -/
theorem tokensWF_head (t : List Char) (k : Nat) (rest : List (List Char × Nat))
    (h : tokensWF ((t, k) :: rest) = true) : ¬ t = [] ∧ (∀ x ∈ t, ¬ x = ' ') := by
  cases rest with
  | nil =>
    simp [tokensWF] at h
    exact ⟨by simpa using h.1, by simpa using h.2⟩
  | cons r rest' =>
    simp [tokensWF] at h
    exact ⟨h.1.1.1, h.1.1.2⟩

/-- In a well-formed token list a non-final token is followed by at least
one space, and the tail is well-formed. -/
theorem tokensWF_rest (t : List Char) (k : Nat) (r : List Char × Nat)
    (rest : List (List Char × Nat))
    (h : tokensWF ((t, k) :: r :: rest) = true) :
    1 ≤ k ∧ tokensWF (r :: rest) = true := by
  simp [tokensWF] at h
  exact ⟨h.1.2, h.2⟩

/-- The line2argv loop, entered right after the first token of a
well-formed in-capacity token list was stored, stores the remaining
tokens at consecutive argv indices, terminates argv with the NULL marker
and returns the total token count, printing nothing. -/
theorem line2argvLoop_run : ∀ (rest : List (List Char × Nat)) (t : List Char) (k : Nat)
    (argv : List (Option String)) (argc size : Nat),
    tokensWF ((t, k) :: rest) = true →
    argc + rest.length < size →
    line2argvLoop (buildToks ((t, k) :: rest)) size argv argc
      = (argc + rest.length, writeArgs argv argc (tokStrings rest), []) := by
  intro rest
  induction rest with
  | nil =>
    intro t k argv argc size hwf hcap
    obtain ⟨ht, hsp⟩ := tokensWF_head t k [] hwf
    cases k with
    | zero =>
      rw [show buildToks [(t, 0)] = t by simp [buildToks]]
      rw [line2argvLoop_nospace _ _ _ _ (token_any_false t hsp)]
      simp [writeArgs, tokStrings]
    | succ k' =>
      rw [show buildToks [(t, k' + 1)] = t ++ ' ' :: (List.replicate k' ' ' ++ []) by
        simp [buildToks, List.replicate_succ]]
      rw [line2argvLoop_trail _ _ _ _ (any_token_space _ _)
        (by rw [restOf_token t k' [] hsp]; simp)]
      simp [writeArgs, tokStrings]
  | cons p rest' ih =>
    intro t k argv argc size hwf hcap
    obtain ⟨t2, k2⟩ := p
    obtain ⟨ht, hsp⟩ := tokensWF_head t k ((t2, k2) :: rest') hwf
    obtain ⟨hk, hwf'⟩ := tokensWF_rest t k (t2, k2) rest' hwf
    obtain ⟨ht2, hsp2⟩ := tokensWF_head t2 k2 rest' hwf'
    simp only [List.length_cons] at hcap
    cases k with
    | zero => omega
    | succ k'' =>
      have hbuild : buildToks ((t, k'' + 1) :: (t2, k2) :: rest')
          = t ++ ' ' :: (List.replicate k'' ' ' ++ buildToks ((t2, k2) :: rest')) := by
        simp [buildToks, List.replicate_succ]
      rw [hbuild]
      have hb2 : buildToks ((t2, k2) :: rest')
          = t2 ++ (List.replicate k2 ' ' ++ buildToks rest') := by
        simp [buildToks]
      have hrest : restOf (t ++ ' ' :: (List.replicate k'' ' ' ++ buildToks ((t2, k2) :: rest')))
          = buildToks ((t2, k2) :: rest') := by
        rw [restOf_token t k'' _ hsp, hb2]
        exact dropSpaces_head_nonspace t2 _ ht2 hsp2
      have hne : ¬ (buildToks ((t2, k2) :: rest') = []) := by
        intro hcontra
        rw [hb2] at hcontra
        exact ht2 (List.append_eq_nil.mp hcontra).1
      rw [line2argvLoop_next _ _ _ _ (any_token_space _ _) (by rw [hrest]; exact hne)
        (by omega)]
      rw [hrest]
      have htake : (buildToks ((t2, k2) :: rest')).takeWhile (fun c => !(c == ' ')) = t2 := by
        cases k2 with
        | zero =>
          cases rest' with
          | nil =>
            rw [show buildToks [(t2, 0)] = t2 by simp [buildToks]]
            exact takeWhile_token_all t2 hsp2
          | cons q qs =>
            obtain ⟨hk2, _⟩ := tokensWF_rest t2 0 q qs hwf'
            omega
        | succ k2' =>
          rw [show buildToks ((t2, k2' + 1) :: rest')
              = t2 ++ ' ' :: (List.replicate k2' ' ' ++ buildToks rest') by
            simp [buildToks, List.replicate_succ]]
          exact takeWhile_token t2 _ hsp2
      rw [htake]
      rw [ih t2 k2 _ (argc + 1) size hwf' (by omega)]
      have harith : argc + (rest'.length + 1) = argc + 1 + rest'.length := by omega
      simp [tokStrings, writeArgs, harith]

/-- Closed form of the argv writes of a successful tokenization. -/
theorem writeArgs_eq : ∀ (toks : List String) (argv : List (Option String)) (i : Nat),
    i + toks.length < argv.length →
    writeArgs argv i toks
      = argv.take i ++ toks.map some ++ none :: argv.drop (i + toks.length + 1) := by
  intro toks
  induction toks with
  | nil =>
    intro argv i h
    simp only [List.length_nil, Nat.add_zero] at h
    simp only [writeArgs, List.map_nil, List.nil_append]
    rw [List.set_eq_take_cons_drop _ h]
    simp
  | cons s ts ih =>
    intro argv i h
    simp only [List.length_cons] at h
    simp only [writeArgs]
    rw [ih (argv.set i (some s)) (i + 1) (by simp only [List.length_set]; omega)]
    rw [List.set_eq_take_cons_drop _ (by omega)]
    have hlen : (argv.take i).length = i := by
      rw [List.length_take]
      omega
    have hA : (argv.take i ++ some s :: argv.drop (i + 1)).take (i + 1)
        = argv.take i ++ [some s] := by
      rw [List.take_append_eq_append_take, hlen]
      rw [List.take_of_length_le (by omega)]
      rw [show i + 1 - i = 1 from by omega]
      rfl
    have hB : (argv.take i ++ some s :: argv.drop (i + 1)).drop (i + 1 + ts.length + 1)
        = argv.drop (i + (ts.length + 1) + 1) := by
      rw [List.drop_append_eq_append_drop, hlen]
      rw [List.drop_eq_nil_of_le (by omega)]
      rw [show i + 1 + ts.length + 1 - i = ts.length + 1 + 1 from by omega]
      rw [List.nil_append, List.drop_succ_cons, List.drop_drop]
      rw [show i + 1 + (ts.length + 1) = i + (ts.length + 1) + 1 from by omega]
    rw [hA, hB]
    simp

/-- The first stored token of a well-formed token list text is its first
token. -/
theorem buildToks_takeWhile (t : List Char) (k : Nat) (rest : List (List Char × Nat))
    (hwf : tokensWF ((t, k) :: rest) = true) :
    (buildToks ((t, k) :: rest)).takeWhile (fun c => !(c == ' ')) = t := by
  obtain ⟨ht, hsp⟩ := tokensWF_head t k rest hwf
  cases k with
  | zero =>
    cases rest with
    | nil =>
      rw [show buildToks [(t, 0)] = t by simp [buildToks]]
      exact takeWhile_token_all t hsp
    | cons q qs =>
      obtain ⟨hk2, _⟩ := tokensWF_rest t 0 q qs hwf
      omega
  | succ k' =>
    rw [show buildToks ((t, k' + 1) :: rest)
        = t ++ ' ' :: (List.replicate k' ' ' ++ buildToks rest) by
      simp [buildToks, List.replicate_succ]]
    exact takeWhile_token t _ hsp

/-- C3 (amended): for any line made of leading spaces and a well-formed
token list whose length is below the capacity argument, line2argv returns
exactly the original tokens in order, prints nothing, and returns argc 0
exactly when the trimmed input is empty. -/
theorem tokenizer_roundtrip (lead : Nat) (ts : List (List Char × Nat))
    (argv : List (Option String)) (size : Nat)
    (hwf : tokensWF ts = true) (hcap : ts.length < size) (hlen : size ≤ argv.length) :
    (line2argv (buildLine lead ts) argv size).1 = ts.length ∧
    (line2argv (buildLine lead ts) argv size).2.1.take ts.length = (tokStrings ts).map some ∧
    (line2argv (buildLine lead ts) argv size).2.2 = [] ∧
    ((line2argv (buildLine lead ts) argv size).1 = 0 ↔ ts = []) := by
  have hdata : (buildLine lead ts).data = List.replicate lead ' ' ++ buildToks ts := rfl
  cases ts with
  | nil =>
    have hrun : line2argv (buildLine lead []) argv size = (0, argv, []) := by
      unfold line2argv
      rw [hdata]
      simp only [buildToks, List.append_nil]
      by_cases h0 : (List.replicate lead ' ' : List Char) = []
      · rw [if_pos h0]
      · rw [if_neg h0]
        rw [show (List.replicate lead ' ').dropWhile (fun c => c == ' ') = ([] : List Char) from by
          have h := dropSpaces_replicate lead []
          rw [List.append_nil] at h
          rw [h]
          rfl]
        simp
    rw [hrun]
    simp [tokStrings]
  | cons p rest =>
    obtain ⟨t, k⟩ := p
    obtain ⟨ht, hsp⟩ := tokensWF_head t k rest hwf
    have hb : buildToks ((t, k) :: rest) = t ++ (List.replicate k ' ' ++ buildToks rest) := by
      simp [buildToks]
    have hne2 : ¬ (buildToks ((t, k) :: rest) = []) := by
      intro hc
      rw [hb] at hc
      exact ht (List.append_eq_nil.mp hc).1
    have hs1 : (List.replicate lead ' ' ++ buildToks ((t, k) :: rest)).dropWhile
        (fun c => c == ' ') = buildToks ((t, k) :: rest) := by
      rw [dropSpaces_replicate, hb]
      exact dropSpaces_head_nonspace t _ ht hsp
    have hrun : line2argv (buildLine lead ((t, k) :: rest)) argv size
        = (1 + rest.length, writeArgs (argv.set 0 (some (String.mk t))) 1 (tokStrings rest),
           []) := by
      unfold line2argv
      rw [hdata]
      rw [if_neg (by intro hc; exact hne2 (List.append_eq_nil.mp hc).2)]
      rw [hs1]
      rw [if_neg hne2]
      rw [buildToks_takeWhile t k rest hwf]
      exact line2argvLoop_run rest t k _ 1 size hwf
        (by simp only [List.length_cons] at hcap; omega)
    have hw : writeArgs (argv.set 0 (some (String.mk t))) 1 (tokStrings rest)
        = writeArgs argv 0 (tokStrings ((t, k) :: rest)) := rfl
    have hts : (tokStrings ((t, k) :: rest)).length = rest.length + 1 := by
      simp [tokStrings]
    rw [hrun, hw]
    rw [writeArgs_eq (tokStrings ((t, k) :: rest)) argv 0
      (by rw [hts]; simp only [List.length_cons] at hcap; omega)]
    refine ⟨by simp only [List.length_cons]; omega, ?_, rfl,
      ⟨fun hc => absurd hc (by omega), fun hc => absurd hc (List.cons_ne_nil _ _)⟩⟩
    rw [List.take_zero, List.nil_append]
    rw [show ((t, k) :: rest).length = (tokStrings ((t, k) :: rest)).length from by
      simp [tokStrings]]
    exact List.take_left' (by simp)

/-- Tokenizing "a b" with capacity 2 aborts: both tokens are written but
argc 0 is returned with the rejection notice. -/
theorem tok_overflow_ab :
    line2argv "a b" [none, none] 2
      = (0, [some "a", some "b"], ["Too many parameters (max 1)\n"]) := by
  have h1 : line2argvLoop ['a', ' ', 'b'] 2 [some "a", none] 1
      = (0, [some "a", some "b"], ["Too many parameters (max 1)\n"]) := by
    rw [line2argvLoop_abort _ _ _ _ (by decide) (by decide) (by decide)]
    decide
  exact h1

/-- C3 counterexample: "a b" with capacity 2 returns argc 0 although the
trimmed input is nonempty, refuting the unrestricted round-trip claim. -/
theorem tokenizer_roundtrip_counterexample :
    line2argv "a b" [none, none] 2
      = (0, [some "a", some "b"], ["Too many parameters (max 1)\n"]) ∧
    ¬ ("a b".data.dropWhile (fun c => c == ' ') = []) := by
  exact ⟨tok_overflow_ab, by decide⟩

/-- C3 witness: the line " ab  c" with capacity 4 yields argc 2 and the
tokens "ab", "c". -/
theorem tokenizer_roundtrip_witness :
    (line2argv (buildLine 1 [(['a', 'b'], 2), (['c'], 0)])
        (List.replicate 4 (none : Option String)) 4).1 = 2 ∧
    (line2argv (buildLine 1 [(['a', 'b'], 2), (['c'], 0)])
        (List.replicate 4 (none : Option String)) 4).2.1.take 2
      = [some "ab", some "c"] := by
  have h := tokenizer_roundtrip 1 [(['a', 'b'], 2), (['c'], 0)]
    (List.replicate 4 (none : Option String)) 4 (by decide) (by decide) (by decide)
  exact ⟨h.1, h.2.1⟩

/-- C9 counterexample: on empty input line2argv returns argc 0 without
writing any NULL marker: the argv array is returned untouched, with its
position argc = 0 not NULL. -/
theorem argv_null_marker_counterexample :
    line2argv "" [some "junk"] 1 = (0, [some "junk"], []) ∧
    ¬ (argvGet [some "junk"] 0 = none) := by
  exact ⟨rfl, by decide⟩

/-- C9 witness: tokenizing "a" returns argc 1 and argv[1] = none. -/
theorem argv_null_marker_witness :
    ¬ (line2argv "a" [none, none] 2).1 = 0 ∧
    argvGet (line2argv "a" [none, none] 2).2.1 ((line2argv "a" [none, none] 2).1) = none := by
  have heval : line2argv "a" [none, none] 2 = (1, [some "a", none], []) := by
    have h1 : line2argvLoop ['a'] 2 [some "a", none] 1 = (1, [some "a", none], []) := by
      rw [line2argvLoop_nospace _ _ _ _ (by decide)]
      decide
    exact h1
  refine ⟨by rw [heval]; decide, ?_⟩
  exact argv_null_marker "a" [none, none] 2 (by rw [heval]; decide)

end Spec2Proof
